import Mathlib

/-!
Verification of the `ln` utility (somnisoft/link, `src/ln.c`).

The C sources are embedded shallowly:

* Strings (`char *` paths) become `List Char`; `size_t` arithmetic is `Nat`
  reduced modulo `2 ^ 64` where the C code can wrap.
* `struct ln_ctx` becomes `LnCtx` (`status_code` as a `Bool` failure flag,
  plus the `flags` bitset as a `Nat`).
* Filesystem syscalls (`stat`, `lstat`, `unlink`, `link`, `linkat`,
  `symlink`) and allocation (`strdup`, `malloc`) are parameterised by a
  static environment `Env` recording each call's outcome; each embedded
  function additionally returns an effect trace `Fx` listing the metadata
  probes, unlink attempts and link-creation syscalls it performed, so
  theorems can speak about which filesystem operations were reached.
* `libgen.h` `basename` and POSIX `getopt` are modelled from their POSIX
  specification (trailing-slash-stripped final component; option scanning
  that stops at the first non-option argument, with `--` ending options).
* The out-of-bounds character read that `ln_path_target_concat` performs
  when `target_dir` is empty (`target_dir[(size_t)0 - 1]`) is made explicit
  as a distinguished `ConcatR.oob` result / `Fx.ub` flag: the C behaviour is
  undefined there, and the model records that fact instead of inventing one.
-/

namespace Ln

/-- Paths are byte strings (no interior NUL is modelled). -/
abbrev Path := List Char

/-- `size_t` is 64 bits wide: arithmetic wraps modulo `2 ^ 64`. -/
def SIZE_T_MOD : Nat := 2 ^ 64

/-- `LN_FLAG_REMOVE_DEST`: remove the destination path if it already exists
(`-f`). -/
def LN_FLAG_REMOVE_DEST : Nat := 1

/-- `LN_FLAG_FOLLOW_SYMBOLIC`: hard-link to the file a symbolic-link source
points to (`-L`) rather than to the symlink itself (`-P`). -/
def LN_FLAG_FOLLOW_SYMBOLIC : Nat := 2

/-- `LN_FLAG_SYMBOLIC`: create symbolic links (`-s`). -/
def LN_FLAG_SYMBOLIC : Nat := 4

/-- `unsigned int` mask with the `LN_FLAG_FOLLOW_SYMBOLIC` bit cleared:
the value of `~LN_FLAG_FOLLOW_SYMBOLIC` at 32 bits, used by the `-P` case
(`flags &= ~LN_FLAG_FOLLOW_SYMBOLIC`). -/
def NOT_FOLLOW_SYMBOLIC : Nat := 2 ^ 32 - 1 - LN_FLAG_FOLLOW_SYMBOLIC

/-- `AT_SYMLINK_FOLLOW` flag value passed to `linkat` (from `<fcntl.h>`). -/
def AT_SYMLINK_FOLLOW : Nat := 1024

/-- The file type a `struct stat` reports via `st_mode`
(`S_ISDIR` / `S_ISLNK` / anything else). -/
inductive FType where
  | dir : FType
  | lnk : FType
  | reg : FType
deriving DecidableEq, Repr

/-- The slice of `struct stat` the program reads: device id, inode number
and the `st_mode` file-type bits. -/
structure Stat where
  st_dev : Nat
  st_ino : Nat
  ftype : FType
deriving DecidableEq, Repr

/-- `struct ln_ctx`: accumulated exit status (`status_failure = true` models
`status_code = EXIT_FAILURE`) and the option-flag bitset. -/
structure LnCtx where
  status_failure : Bool
  flags : Nat
deriving DecidableEq, Repr

/-- `ln_warn`: prints a diagnostic to stderr and sets
`status_code = EXIT_FAILURE`; only the status mutation is observable in the
model. -/
def ln_warn (ctx : LnCtx) : LnCtx :=
  { ctx with status_failure := true }

/-- A link-creation syscall as invoked by `ln_create_link`, carrying the
literal path arguments (and the `linkat` flag argument). -/
inductive LinkOp where
  | symlinkOp (src dst : Path) : LinkOp
  | linkatOp (src dst : Path) (flag : Nat) : LinkOp
  | linkOp (src dst : Path) : LinkOp
deriving DecidableEq, Repr

/-- Effect trace of a run: paths probed with `stat`/`lstat`, paths passed to
`unlink`, link-creation syscalls attempted, and whether an undefined
out-of-bounds read was reached. -/
structure Fx where
  stats : List Path
  unlinks : List Path
  ops : List LinkOp
  ub : Bool
deriving DecidableEq, Repr

/-- The empty effect trace. -/
def Fx.nil : Fx := ⟨[], [], [], false⟩

/-- Sequential composition of effect traces. -/
def Fx.app (a b : Fx) : Fx :=
  ⟨a.stats ++ b.stats, a.unlinks ++ b.unlinks, a.ops ++ b.ops, a.ub || b.ub⟩

/-- Static syscall/allocation environment: the outcome each external call
would have.  `stat`/`lstat` return `none` when the call fails. -/
structure Env where
  stat : Path → Option Stat
  lstat : Path → Option Stat
  unlink_ok : Path → Bool
  link_ok : Path → Path → Bool
  linkat_ok : Path → Path → Nat → Bool
  symlink_ok : Path → Path → Bool
  strdup_ok : Path → Bool
  malloc_ok : Nat → Bool

/-- `si_add_size_t`: adds two `size_t` values modulo `2 ^ 64`, reporting
`true` (no wrap) in the first component exactly as the C returns `!(wrap)`,
with `wrap` detected by `*result < a`; the second component is `*result`. -/
def si_add_size_t (a b : Nat) : Bool × Nat :=
  let result := (a + b) % SIZE_T_MOD
  let wrap := result < a
  (!wrap, result)

/-- POSIX `basename` (`<libgen.h>`), modelled from its specification: `"."`
for an empty path, `"/"` for an all-slash path, otherwise the final
component after stripping trailing slashes. -/
def basename (s : Path) : Path :=
  if s = [] then ['.']
  else
    let t := (s.reverse.dropWhile (fun c => c = '/')).reverse
    if t = [] then ['/']
    else (t.reverse.takeWhile (fun c => c ≠ '/')).reverse

/-- Result of `ln_path_target_concat`: the composed path, a `NULL` return
(allocation failure or length overflow), or the undefined-behaviour read of
`target_dir[(size_t)0 - 1]` reached when `target_dir` is empty. -/
inductive ConcatR where
  | ok (path : Path) : ConcatR
  | fail : ConcatR
  | oob : ConcatR
deriving DecidableEq, Repr

/-- `ln_path_target_concat`: duplicates `source_file` (`strdup`, fallible),
takes its `basename`, computes `len(target_dir) + len(bname) + 2` with the
wrap-checked adder, allocates (`malloc`, fallible), then copies
`target_dir`, a `/` — skipped when `target_dir[strlen(target_dir) - 1]`
reads `'/'`, an index taken modulo `2 ^ 64` as in C — and the basename.
An in-bounds read of index `strlen(target_dir)` would see the NUL
terminator (never `'/'`); any larger index is out of bounds. -/
def ln_path_target_concat (strdup_ok : Bool) (malloc_ok : Nat → Bool)
    (target_dir source_file : Path) : ConcatR :=
  if strdup_ok then
    let bname_source_file := basename source_file
    let slen_target_dir := target_dir.length
    let slen_bname_source_file := bname_source_file.length
    let add1 := si_add_size_t slen_target_dir slen_bname_source_file
    if add1.1 then
      let add2 := si_add_size_t add1.2 2
      if add2.1 then
        if malloc_ok add2.2 then
          let idx := (slen_target_dir + (SIZE_T_MOD - 1)) % SIZE_T_MOD
          if idx = slen_target_dir then
            ConcatR.ok (target_dir ++ '/' :: bname_source_file)
          else
            match target_dir[idx]? with
            | some ch =>
              if ch ≠ '/' then ConcatR.ok (target_dir ++ '/' :: bname_source_file)
              else ConcatR.ok (target_dir ++ bname_source_file)
            | none => ConcatR.oob
        else ConcatR.fail
      else ConcatR.fail
    else ConcatR.fail
  else ConcatR.fail

/-- `ln_same_file`: two stat records name the same directory entry when
their `st_dev` and `st_ino` both match. -/
def ln_same_file (sb1 sb2 : Stat) : Bool :=
  if sb1.st_dev = sb2.st_dev ∧ sb1.st_ino = sb2.st_ino then true else false

/-- Result of `ln_remove_dest`: the updated context, the `removed` return
value, and the effect trace (the `stat` probe of the destination and any
`unlink` attempt). -/
structure RmR where
  ctx : LnCtx
  removed : Bool
  fx : Fx
deriving DecidableEq, Repr

/-- `ln_remove_dest`: `stat` the destination; absent → `removed = true`.
Present without `LN_FLAG_REMOVE_DEST` → warn, `removed = false`.  Present
with the flag: same (dev, ino) as the source → warn, `removed = false`;
otherwise `unlink` it, warning on unlink failure. -/
def ln_remove_dest (env : Env) (ctx : LnCtx) (source_sb : Stat)
    (path_dest : Path) : RmR :=
  match env.stat path_dest with
  | some dest_sb =>
    if ctx.flags &&& LN_FLAG_REMOVE_DEST ≠ 0 then
      if ln_same_file source_sb dest_sb then
        ⟨ln_warn ctx, false, ⟨[path_dest], [], [], false⟩⟩
      else
        if env.unlink_ok path_dest then
          ⟨ctx, true, ⟨[path_dest], [path_dest], [], false⟩⟩
        else
          ⟨ln_warn ctx, false, ⟨[path_dest], [path_dest], [], false⟩⟩
    else
      ⟨ln_warn ctx, false, ⟨[path_dest], [], [], false⟩⟩
  | none => ⟨ctx, true, ⟨[path_dest], [], [], false⟩⟩

/-- Result of `ln_create_link`, `ln_target_dir` and `ln_main`: the updated
context and the effect trace. -/
structure RunR where
  ctx : LnCtx
  fx : Fx
deriving DecidableEq, Repr

/-- `ln_create_link`: `lstat` the source (failure → warn, nothing else);
then `ln_remove_dest`; if it cleared the way, perform exactly one of
`symlink` (flag `-s`), `linkat` (source itself a symlink; flag argument
`AT_SYMLINK_FOLLOW` iff `LN_FLAG_FOLLOW_SYMBOLIC`), or `link`, warning if
that syscall fails. -/
def ln_create_link (env : Env) (ctx : LnCtx) (path_source path_dest : Path) :
    RunR :=
  match env.lstat path_source with
  | none => ⟨ln_warn ctx, ⟨[path_source], [], [], false⟩⟩
  | some source_sb =>
    let r := ln_remove_dest env ctx source_sb path_dest
    if r.removed then
      let chosen : LinkOp × Bool :=
        if r.ctx.flags &&& LN_FLAG_SYMBOLIC ≠ 0 then
          (LinkOp.symlinkOp path_source path_dest,
           env.symlink_ok path_source path_dest)
        else
          if source_sb.ftype = FType.lnk then
            let linkat_flag :=
              if r.ctx.flags &&& LN_FLAG_FOLLOW_SYMBOLIC ≠ 0 then
                AT_SYMLINK_FOLLOW
              else 0
            (LinkOp.linkatOp path_source path_dest linkat_flag,
             env.linkat_ok path_source path_dest linkat_flag)
          else
            (LinkOp.linkOp path_source path_dest,
             env.link_ok path_source path_dest)
      let ctx2 := if chosen.2 then r.ctx else ln_warn r.ctx
      ⟨ctx2, ⟨path_source :: r.fx.stats, r.fx.unlinks, [chosen.1], r.fx.ub⟩⟩
    else
      ⟨r.ctx, ⟨path_source :: r.fx.stats, r.fx.unlinks, [], r.fx.ub⟩⟩

/-- `ln_target_dir`: compose `target_dir/basename(source_file)`; a `NULL`
return warns (`"alloc"`); otherwise create the link at the composed path.
The undefined-read case is recorded in the trace's `ub` flag. -/
def ln_target_dir (env : Env) (ctx : LnCtx) (source_file target_dir : Path) :
    RunR :=
  match ln_path_target_concat (env.strdup_ok source_file) env.malloc_ok
      target_dir source_file with
  | ConcatR.ok path_dest => ln_create_link env ctx source_file path_dest
  | ConcatR.fail => ⟨ln_warn ctx, Fx.nil⟩
  | ConcatR.oob => ⟨ctx, ⟨[], [], [], true⟩⟩

/-- One option character of the `getopt(argc, argv, "fLPs")` loop, mirroring
the `switch` in `ln_main`: `-f`, `-L`, `-s` set their bits, `-P` clears the
follow bit (`flags &= ~LN_FLAG_FOLLOW_SYMBOLIC` at 32 bits), anything else
is the `default:` case setting `status_code = EXIT_FAILURE`.  The
accumulator is `(flags, failed)`. -/
def getoptChar (acc : Nat × Bool) (c : Char) : Nat × Bool :=
  if c = 'f' then (acc.1 ||| LN_FLAG_REMOVE_DEST, acc.2)
  else if c = 'L' then (acc.1 ||| LN_FLAG_FOLLOW_SYMBOLIC, acc.2)
  else if c = 'P' then (acc.1 &&& NOT_FOLLOW_SYMBOLIC, acc.2)
  else if c = 's' then (acc.1 ||| LN_FLAG_SYMBOLIC, acc.2)
  else (acc.1, true)

/-- The whole `getopt` loop over `argv[1..]`, with POSIX semantics: an
argument starting with `-` and at least two characters long is an option
element whose characters are processed by `getoptChar`; `--` exactly ends
option scanning; the first non-option argument stops it.  Returns the final
flags, the failure bit, and the remaining operands (`argv + optind`). -/
def getoptLoop : List Path → Nat → Bool → Nat × Bool × List Path
  | [], flags, failed => (flags, failed, [])
  | tok :: rest, flags, failed =>
    match tok with
    | '-' :: c :: cs =>
      if c = '-' ∧ cs = [] then (flags, failed, rest)
      else
        let acc := (c :: cs).foldl getoptChar (flags, failed)
        getoptLoop rest acc.1 acc.2
    | _ => (flags, failed, tok :: rest)

/-- `ln_main` over `argv[1..]`: parse flags; a parse failure returns
immediately; fewer than two operands warns; a final operand that `stat`s to
a directory drives `ln_target_dir` over every other operand; otherwise two
operands go straight to `ln_create_link` and any other count warns. -/
def ln_main (env : Env) (args : List Path) : RunR :=
  let parsed := getoptLoop args 0 false
  let ctx0 : LnCtx := ⟨parsed.2.1, parsed.1⟩
  let operands := parsed.2.2
  if ctx0.status_failure then ⟨ctx0, Fx.nil⟩
  else if operands.length < 2 then ⟨ln_warn ctx0, Fx.nil⟩
  else
    let tgt := operands.getLastD []
    let statFx : Fx := ⟨[tgt], [], [], false⟩
    match env.stat tgt with
    | some target_sb =>
      if target_sb.ftype = FType.dir then
        operands.dropLast.foldl
          (fun acc src =>
            let r := ln_target_dir env acc.ctx src tgt
            ⟨r.ctx, acc.fx.app r.fx⟩)
          (⟨ctx0, statFx⟩ : RunR)
      else if operands.length > 2 then ⟨ln_warn ctx0, statFx⟩
      else
        let r := ln_create_link env ctx0 (operands.getD 0 []) (operands.getD 1 [])
        ⟨r.ctx, statFx.app r.fx⟩
    | none =>
      if operands.length ≠ 2 then ⟨ln_warn ctx0, statFx⟩
      else
        let r := ln_create_link env ctx0 (operands.getD 0 []) (operands.getD 1 [])
        ⟨r.ctx, statFx.app r.fx⟩

/-- The option characters `getopt(.., "fLPs")` recognises. -/
def isRecognizedFlag (c : Char) : Bool :=
  c = 'f' || c = 'L' || c = 'P' || c = 's'

/-- An argument list contains an unrecognised flag token: some option
element (before `--` or the first non-option argument) carries a character
outside `fLPs`. -/
def hasBadFlag : List Path → Bool
  | [] => false
  | tok :: rest =>
    match tok with
    | '-' :: c :: cs =>
      if c = '-' ∧ cs = [] then false
      else (c :: cs).any (fun ch => !isRecognizedFlag ch) || hasBadFlag rest
    | _ => false

/-- Argument validation failed before any per-operand step ran: a bad flag,
fewer than two operands, more than two operands with a non-directory final
operand, or a final operand whose `stat` fails with an operand count other
than two. -/
def argValidationFailed (env : Env) (args : List Path) : Bool :=
  let parsed := getoptLoop args 0 false
  let operands := parsed.2.2
  parsed.2.1 || decide (operands.length < 2) ||
    (match env.stat (operands.getLastD []) with
     | some target_sb =>
       if target_sb.ftype = FType.dir then false
       else decide (operands.length > 2)
     | none => decide (operands.length ≠ 2))

/-- The independent failure verdict of each per-operand step an invocation
performs: each batch source is run through `ln_target_dir` from a clean
(success) context, the direct two-operand form through `ln_create_link`.
Invocations that fail validation perform no step. -/
def lnStepResults (env : Env) (args : List Path) : List Bool :=
  let parsed := getoptLoop args 0 false
  let flags := parsed.1
  let operands := parsed.2.2
  if parsed.2.1 || decide (operands.length < 2) then []
  else
    let tgt := operands.getLastD []
    match env.stat tgt with
    | some target_sb =>
      if target_sb.ftype = FType.dir then
        operands.dropLast.map
          (fun src => (ln_target_dir env ⟨false, flags⟩ src tgt).ctx.status_failure)
      else if operands.length > 2 then []
      else
        [(ln_create_link env ⟨false, flags⟩ (operands.getD 0 [])
            (operands.getD 1 [])).ctx.status_failure]
    | none =>
      if operands.length ≠ 2 then []
      else
        [(ln_create_link env ⟨false, flags⟩ (operands.getD 0 [])
            (operands.getD 1 [])).ctx.status_failure]

/-- The flag bitset an invocation ends option parsing with. -/
def lnFlags (args : List Path) : Nat := (getoptLoop args 0 false).1

/-- The positional operands left after option parsing
(`argc -= optind; argv += optind`). -/
def lnOperands (args : List Path) : List Path := (getoptLoop args 0 false).2.2

/-- The final operand, `argv[argc - 1]`. -/
def lnTargetArg (args : List Path) : Path := (lnOperands args).getLastD []

/-- The condition `stat(path) == 0 && S_ISDIR(st_mode)` of `ln_main`. -/
def resolvesToDir (env : Env) (p : Path) : Bool :=
  match env.stat p with
  | some sb => sb.ftype = FType.dir
  | none => false

/-- An environment in which every syscall and allocation fails: used to
instantiate theorems at concrete inputs. -/
def envNone : Env :=
  ⟨fun _ => none, fun _ => none, fun _ => false, fun _ _ => false,
   fun _ _ _ => false, fun _ _ => false, fun _ => false, fun _ => false⟩

/-! ### Helper lemmas: the accumulated status threads through every
operation without influencing it, and effect traces compose. -/

/-- `ln_remove_dest` never alters the flag bitset of the context. -/
theorem ln_remove_dest_flags (env : Env) (ctx : LnCtx) (sb : Stat) (d : Path) :
    (ln_remove_dest env ctx sb d).ctx.flags = ctx.flags := by
  simp only [ln_remove_dest, ln_warn]
  cases env.stat d with
  | none => simp
  | some dsb =>
    simp
    split_ifs <;> simp

/-- `ln_remove_dest` from an arbitrary status bit equals the clean-context
run with the incoming bit or-ed onto the resulting status: the status is
write-only and the rest of the behaviour ignores it. -/
theorem ln_remove_dest_split (env : Env) (b : Bool) (fl : Nat) (sb : Stat) (d : Path) :
    ln_remove_dest env ⟨b, fl⟩ sb d =
      ⟨⟨b || (ln_remove_dest env ⟨false, fl⟩ sb d).ctx.status_failure, fl⟩,
       (ln_remove_dest env ⟨false, fl⟩ sb d).removed,
       (ln_remove_dest env ⟨false, fl⟩ sb d).fx⟩ := by
  simp only [ln_remove_dest, ln_warn]
  cases env.stat d with
  | none => simp
  | some dsb =>
    simp
    split_ifs <;> simp

/-- `ln_create_link` status-threading: same decomposition as
`ln_remove_dest_split`. -/
theorem ln_create_link_split (env : Env) (b : Bool) (fl : Nat) (s d : Path) :
    ln_create_link env ⟨b, fl⟩ s d =
      ⟨⟨b || (ln_create_link env ⟨false, fl⟩ s d).ctx.status_failure, fl⟩,
       (ln_create_link env ⟨false, fl⟩ s d).fx⟩ := by
  simp only [ln_create_link, ln_warn]
  cases env.lstat s with
  | none => simp
  | some sb =>
    simp only [ln_remove_dest_split env b fl sb d, ln_remove_dest_flags]
    split_ifs <;> simp

/-- `ln_target_dir` status-threading: same decomposition again. -/
theorem ln_target_dir_split (env : Env) (b : Bool) (fl : Nat) (s t : Path) :
    ln_target_dir env ⟨b, fl⟩ s t =
      ⟨⟨b || (ln_target_dir env ⟨false, fl⟩ s t).ctx.status_failure, fl⟩,
       (ln_target_dir env ⟨false, fl⟩ s t).fx⟩ := by
  simp only [ln_target_dir, ln_warn]
  cases ln_path_target_concat (env.strdup_ok s) env.malloc_ok t s with
  | ok p => exact ln_create_link_split env b fl s p
  | fail => simp
  | oob => simp

/-- Appending the empty trace is a no-op. -/
theorem Fx.app_nil (a : Fx) : a.app Fx.nil = a := by
  simp [Fx.app, Fx.nil]

/-- Prepending the empty trace is a no-op. -/
theorem Fx.nil_app (a : Fx) : Fx.nil.app a = a := by
  simp [Fx.app, Fx.nil]

/-- Trace composition is associative. -/
theorem Fx.app_assoc (a b c : Fx) : (a.app b).app c = a.app (b.app c) := by
  simp [Fx.app, Bool.or_assoc]

/-- A left fold that appends one trace per element factors through the
fold started from the empty trace. -/
theorem fxFold_shift (g : Path → Fx) (ss : List Path) (a : Fx) :
    ss.foldl (fun acc s => acc.app (g s)) a =
      a.app (ss.foldl (fun acc s => acc.app (g s)) Fx.nil) := by
  induction ss generalizing a with
  | nil => simp [Fx.app_nil]
  | cons s ss ih =>
    simp only [List.foldl_cons]
    rw [ih (a.app (g s)), ih (Fx.nil.app (g s)), Fx.nil_app, Fx.app_assoc]

/-- `ops` of a composed trace. -/
theorem Fx.app_ops (a b : Fx) : (a.app b).ops = a.ops ++ b.ops := rfl

/-- `unlinks` of a composed trace. -/
theorem Fx.app_unlinks (a b : Fx) : (a.app b).unlinks = a.unlinks ++ b.unlinks := rfl

/-- `stats` of a composed trace. -/
theorem Fx.app_stats (a b : Fx) : (a.app b).stats = a.stats ++ b.stats := rfl

/-- The `ops` component of a trace fold is the concatenation of the
per-element `ops`. -/
theorem fxFold_ops (g : Path → Fx) (ss : List Path) :
    (ss.foldl (fun acc s => acc.app (g s)) Fx.nil).ops =
      (ss.map fun s => (g s).ops).flatten := by
  induction ss with
  | nil => simp [Fx.nil]
  | cons s ss ih =>
    simp only [List.foldl_cons, List.map_cons, List.flatten_cons]
    rw [fxFold_shift, Fx.nil_app, Fx.app_ops, ih]

/-- The batch loop of `ln_main` over the source operands, decomposed: the
final status is the incoming bit or-ed with the disjunction of the
per-source verdicts each computed from a clean context, and the final trace
is the incoming trace followed by the per-source traces in order. -/
theorem batch_foldl_split (env : Env) (fl : Nat) (tgt : Path)
    (srcs : List Path) (b : Bool) (fx0 : Fx) :
    srcs.foldl
      (fun acc src =>
        let r := ln_target_dir env acc.ctx src tgt
        ⟨r.ctx, acc.fx.app r.fx⟩)
      (⟨⟨b, fl⟩, fx0⟩ : RunR) =
      ⟨⟨b || srcs.any
            (fun s => (ln_target_dir env ⟨false, fl⟩ s tgt).ctx.status_failure),
        fl⟩,
       fx0.app
        (srcs.foldl
          (fun acc s => acc.app (ln_target_dir env ⟨false, fl⟩ s tgt).fx)
          Fx.nil)⟩ := by
  induction srcs generalizing b fx0 with
  | nil => simp [Fx.app_nil]
  | cons s ss ih =>
    simp only [List.foldl_cons, List.any_cons]
    rw [ln_target_dir_split]
    simp only []
    rw [ih]
    rw [fxFold_shift _ ss (Fx.nil.app (ln_target_dir env ⟨false, fl⟩ s tgt).fx),
        Fx.nil_app]
    simp [Bool.or_assoc, Fx.app_assoc]

/-- One `getoptChar` step from an arbitrary failure bit equals the
clean-bit step with the incoming bit or-ed onto the failure output; the
flag output ignores the bit. -/
theorem getoptChar_split (fl : Nat) (b : Bool) (c : Char) :
    getoptChar (fl, b) c = ((getoptChar (fl, false) c).1, b || !isRecognizedFlag c) := by
  simp only [getoptChar, isRecognizedFlag]
  split_ifs <;> simp_all

/-- The flag accumulation of an option element is unaffected by the
incoming failure bit. -/
theorem foldl_getoptChar_fst (cs : List Char) (fl : Nat) (b : Bool) :
    (cs.foldl getoptChar (fl, b)).1 = (cs.foldl getoptChar (fl, false)).1 := by
  induction cs generalizing fl b with
  | nil => rfl
  | cons c cs ih =>
    simp only [List.foldl_cons]
    rw [getoptChar_split fl b c, getoptChar_split fl false c,
        ih ((getoptChar (fl, false) c).1) (b || !isRecognizedFlag c),
        ih ((getoptChar (fl, false) c).1) (false || !isRecognizedFlag c)]

/-- The failure bit after an option element is the incoming bit or-ed with
"some character is unrecognised". -/
theorem foldl_getoptChar_snd (cs : List Char) (fl : Nat) (b : Bool) :
    (cs.foldl getoptChar (fl, b)).2 = (b || cs.any (fun c => !isRecognizedFlag c)) := by
  induction cs generalizing fl b with
  | nil => simp
  | cons c cs ih =>
    simp only [List.foldl_cons, List.any_cons]
    rw [getoptChar_split fl b c,
        ih ((getoptChar (fl, false) c).1) (b || !isRecognizedFlag c)]
    simp [Bool.or_assoc]

/-- The failure bit of the whole option scan is the incoming bit or-ed with
`hasBadFlag`. -/
theorem getoptLoop_failed (args : List Path) (fl : Nat) (b : Bool) :
    (getoptLoop args fl b).2.1 = (b || hasBadFlag args) := by
  induction args generalizing fl b with
  | nil => simp [getoptLoop, hasBadFlag]
  | cons tok rest ih =>
    simp only [getoptLoop, hasBadFlag]
    split
    · split_ifs with h
      · simp
      · rw [ih, foldl_getoptChar_snd]
        simp [Bool.or_assoc]
    · simp

/-- The final flag bitset of the option scan is unaffected by the failure
bit: an unrecognised flag does not stop later flags from being consumed. -/
theorem getoptLoop_fst (args : List Path) (fl : Nat) (b : Bool) :
    (getoptLoop args fl b).1 = (getoptLoop args fl false).1 := by
  induction args generalizing fl b with
  | nil => rfl
  | cons tok rest ih =>
    simp only [getoptLoop]
    split
    · split_ifs with h
      · rfl
      · rw [ih, foldl_getoptChar_fst]
        exact (ih _ _).symm
    · rfl

/-- The operand list left by the option scan is likewise unaffected by the
failure bit. -/
theorem getoptLoop_operands (args : List Path) (fl : Nat) (b : Bool) :
    (getoptLoop args fl b).2.2 = (getoptLoop args fl false).2.2 := by
  induction args generalizing fl b with
  | nil => rfl
  | cons tok rest ih =>
    simp only [getoptLoop]
    split
    · split_ifs with h
      · rfl
      · rw [ih, foldl_getoptChar_fst]
        exact (ih _ _).symm
    · rfl

/-- `any` over a mapped list evaluates the composed predicate. -/
theorem list_any_map_general {α β : Type} (f : α → β) (p : β → Bool) (l : List α) :
    (l.map f).any p = l.any (fun a => p (f a)) := by
  induction l with
  | nil => rfl
  | cons x xs ih => simp [ih]

/-! ### Claim theorems -/

/-- C7: for all `size_t` pairs whose mathematical sum is representable,
`si_add_size_t` reports no wrap and stores exactly `a + b`; whenever the
sum exceeds the representable range — in particular at `(SIZE_MAX, 1)` —
it signals wrap. -/
theorem si_add_size_t_correct :
    (∀ a b : Nat, a < SIZE_T_MOD → b < SIZE_T_MOD → a + b < SIZE_T_MOD →
       si_add_size_t a b = (true, a + b)) ∧
    (∀ a b : Nat, a < SIZE_T_MOD → b < SIZE_T_MOD → SIZE_T_MOD ≤ a + b →
       (si_add_size_t a b).1 = false) ∧
    (si_add_size_t (SIZE_T_MOD - 1) 1).1 = false := by
  have hM : SIZE_T_MOD = 18446744073709551616 := by norm_num [SIZE_T_MOD]
  refine ⟨?_, ?_, ?_⟩
  · intro a b ha hb hab
    simp only [si_add_size_t, Prod.mk.injEq, hM] at *
    constructor
    · rw [Nat.mod_eq_of_lt hab]
      simp
    · exact Nat.mod_eq_of_lt hab
  · intro a b ha hb hab
    simp only [si_add_size_t, hM, Bool.not_eq_eq_eq_not, Bool.not_false,
      decide_eq_true_eq] at *
    omega
  · decide

/-- C7 witness: `3 + 4` is computed exactly with no wrap. -/
theorem si_add_size_t_correct_witness :
    si_add_size_t 3 4 = (true, 7) :=
  si_add_size_t_correct.1 3 4 (by norm_num [SIZE_T_MOD]) (by norm_num [SIZE_T_MOD])
    (by norm_num [SIZE_T_MOD])

/-- C9: `ln_path_target_concat` joins the target directory and the POSIX
basename of the source, omitting the separator exactly when the directory
already ends in a slash: `("dir", "a/b/file.txt") ↦ "dir/file.txt"` and
`("dir/", "file.txt") ↦ "dir/file.txt"`. -/
theorem ln_path_target_concat_examples :
    ln_path_target_concat true (fun _ => true) "dir".toList "a/b/file.txt".toList =
      ConcatR.ok "dir/file.txt".toList ∧
    ln_path_target_concat true (fun _ => true) "dir/".toList "file.txt".toList =
      ConcatR.ok "dir/file.txt".toList := by
  constructor <;> decide

/-- C1: contrary to the claim, an empty `target_dir` does not yield
`"/" ++ basename(source_file)`: even with every allocation succeeding, the
slash test reads `target_dir[(size_t)0 - 1]`, index `2 ^ 64 - 1`, an
out-of-bounds access (undefined behaviour in the C source). -/
theorem ln_path_target_concat_empty_dir_oob :
    ln_path_target_concat true (fun _ => true) [] "file".toList = ConcatR.oob := by
  decide

/-- C3: the destination resolver's four cases: destination absent →
proceed with no failure and no unlink; present without the remove flag →
skip with failure and no unlink; present with the flag but the same
(device, inode) as the source → skip with failure and no unlink; present
with the flag and a different entry → unlink is attempted, proceeding on
success and skipping with failure on unlink failure. -/
theorem ln_remove_dest_cases (env : Env) (ctx : LnCtx) (sb : Stat) (d : Path) :
    (env.stat d = none →
       ln_remove_dest env ctx sb d = ⟨ctx, true, ⟨[d], [], [], false⟩⟩) ∧
    (∀ dsb : Stat, env.stat d = some dsb →
       ctx.flags &&& LN_FLAG_REMOVE_DEST = 0 →
       ln_remove_dest env ctx sb d = ⟨ln_warn ctx, false, ⟨[d], [], [], false⟩⟩) ∧
    (∀ dsb : Stat, env.stat d = some dsb →
       ctx.flags &&& LN_FLAG_REMOVE_DEST ≠ 0 →
       sb.st_dev = dsb.st_dev → sb.st_ino = dsb.st_ino →
       ln_remove_dest env ctx sb d = ⟨ln_warn ctx, false, ⟨[d], [], [], false⟩⟩) ∧
    (∀ dsb : Stat, env.stat d = some dsb →
       ctx.flags &&& LN_FLAG_REMOVE_DEST ≠ 0 →
       ¬(sb.st_dev = dsb.st_dev ∧ sb.st_ino = dsb.st_ino) →
       (env.unlink_ok d = true →
          ln_remove_dest env ctx sb d = ⟨ctx, true, ⟨[d], [d], [], false⟩⟩) ∧
       (env.unlink_ok d = false →
          ln_remove_dest env ctx sb d = ⟨ln_warn ctx, false, ⟨[d], [d], [], false⟩⟩)) := by
  refine ⟨?_, ?_, ?_, ?_⟩
  · intro h
    simp [ln_remove_dest, h]
  · intro dsb h hflag
    simp [ln_remove_dest, h, hflag]
  · intro dsb h hflag hdev hino
    simp [ln_remove_dest, h, hflag, ln_same_file, hdev, hino]
  · intro dsb h hflag hsame
    have hsf : ln_same_file sb dsb = false := by
      simp [ln_same_file, hsame]
    constructor <;> intro hu <;> simp [ln_remove_dest, h, hflag, hsf, hu]

/-- C3 witness: absent destination → proceed. -/
theorem ln_remove_dest_cases_witness :
    ln_remove_dest envNone ⟨false, 0⟩ ⟨0, 0, FType.reg⟩ "dst".toList =
      ⟨⟨false, 0⟩, true, ⟨["dst".toList], [], [], false⟩⟩ :=
  (ln_remove_dest_cases envNone ⟨false, 0⟩ ⟨0, 0, FType.reg⟩ "dst".toList).1 rfl

/-- C4: when the source `lstat` succeeded and the destination resolver
cleared the way, `ln_create_link` performs exactly one link operation:
`symlink` storing literally `path_source` when the symbolic flag is set;
otherwise `linkat` with flag `AT_SYMLINK_FOLLOW` exactly when the follow
flag is set (0 otherwise) if the source is itself a symlink; otherwise a
plain `link`. -/
theorem ln_create_link_op_selection (env : Env) (ctx : LnCtx) (s d : Path) (sb : Stat)
    (hl : env.lstat s = some sb)
    (hr : (ln_remove_dest env ctx sb d).removed = true) :
    (ctx.flags &&& LN_FLAG_SYMBOLIC ≠ 0 →
       (ln_create_link env ctx s d).fx.ops = [LinkOp.symlinkOp s d]) ∧
    (ctx.flags &&& LN_FLAG_SYMBOLIC = 0 → sb.ftype = FType.lnk →
       (ln_create_link env ctx s d).fx.ops =
         [LinkOp.linkatOp s d
            (if ctx.flags &&& LN_FLAG_FOLLOW_SYMBOLIC ≠ 0 then AT_SYMLINK_FOLLOW else 0)]) ∧
    (ctx.flags &&& LN_FLAG_SYMBOLIC = 0 → sb.ftype ≠ FType.lnk →
       (ln_create_link env ctx s d).fx.ops = [LinkOp.linkOp s d]) := by
  refine ⟨?_, ?_, ?_⟩ <;> intro hsym
  · simp [ln_create_link, hl, hr, ln_remove_dest_flags, hsym]
  · intro hlnk
    simp [ln_create_link, hl, hr, ln_remove_dest_flags, hsym, hlnk]
  · intro hlnk
    simp [ln_create_link, hl, hr, ln_remove_dest_flags, hsym, hlnk]

/-- C4 witness: with `-s` set, a symlink is the one operation attempted. -/
theorem ln_create_link_op_selection_witness :
    (ln_create_link
       ⟨fun _ => none, fun _ => some ⟨0, 0, FType.reg⟩, fun _ => false,
        fun _ _ => false, fun _ _ _ => false, fun _ _ => false,
        fun _ => false, fun _ => false⟩
       ⟨false, LN_FLAG_SYMBOLIC⟩ "src".toList "dst".toList).fx.ops =
      [LinkOp.symlinkOp "src".toList "dst".toList] :=
  (ln_create_link_op_selection _ _ _ _ _ rfl (by decide)).1 (by decide)

/-- C6: when `lstat` of the source fails, `ln_create_link` records a
failure and does nothing else: the only probe in its trace is the source
path (the destination resolver is never entered), and no unlink or link
operation is attempted — whatever the flags, including `-s`. -/
theorem ln_create_link_lstat_fail (env : Env) (ctx : LnCtx) (s d : Path)
    (h : env.lstat s = none) :
    ln_create_link env ctx s d = ⟨ln_warn ctx, ⟨[s], [], [], false⟩⟩ := by
  simp [ln_create_link, h]

/-- C6 witness: with the symbolic flag set and a missing source, only the
failed probe happens. -/
theorem ln_create_link_lstat_fail_witness :
    ln_create_link envNone ⟨false, LN_FLAG_SYMBOLIC⟩ "src".toList "dst".toList =
      ⟨ln_warn ⟨false, LN_FLAG_SYMBOLIC⟩, ⟨["src".toList], [], [], false⟩⟩ :=
  ln_create_link_lstat_fail envNone ⟨false, LN_FLAG_SYMBOLIC⟩ _ _ rfl

/-- C10: the status code is monotone: `ln_warn` — the only writer — sets
it to failure, and `ln_remove_dest`, `ln_create_link`, `ln_target_dir`
and the batch loop all preserve an already-failed status through to the
final result. -/
theorem ln_status_monotone :
    (∀ ctx : LnCtx, (ln_warn ctx).status_failure = true) ∧
    (∀ (env : Env) (ctx : LnCtx) (sb : Stat) (d : Path),
       ctx.status_failure = true →
       (ln_remove_dest env ctx sb d).ctx.status_failure = true) ∧
    (∀ (env : Env) (ctx : LnCtx) (s d : Path),
       ctx.status_failure = true →
       (ln_create_link env ctx s d).ctx.status_failure = true) ∧
    (∀ (env : Env) (ctx : LnCtx) (s t : Path),
       ctx.status_failure = true →
       (ln_target_dir env ctx s t).ctx.status_failure = true) ∧
    (∀ (env : Env) (fl : Nat) (tgt : Path) (srcs : List Path) (fx0 : Fx),
       (srcs.foldl
          (fun acc src =>
            let r := ln_target_dir env acc.ctx src tgt
            ⟨r.ctx, acc.fx.app r.fx⟩)
          (⟨⟨true, fl⟩, fx0⟩ : RunR)).ctx.status_failure = true) := by
  refine ⟨fun ctx => rfl, ?_, ?_, ?_, ?_⟩
  · rintro env ⟨b, fl⟩ sb d hb
    subst hb
    rw [ln_remove_dest_split]
    rfl
  · rintro env ⟨b, fl⟩ s d hb
    subst hb
    rw [ln_create_link_split]
    rfl
  · rintro env ⟨b, fl⟩ s t hb
    subst hb
    rw [ln_target_dir_split]
    rfl
  · intro env fl tgt srcs fx0
    rw [batch_foldl_split]
    rfl

/-- C10 witness: an already-failed context stays failed through
`ln_target_dir`. -/
theorem ln_status_monotone_witness :
    (ln_target_dir envNone ⟨true, 0⟩ "src".toList "tgt".toList).ctx.status_failure = true :=
  ln_status_monotone.2.2.2.1 envNone ⟨true, 0⟩ "src".toList "tgt".toList rfl

/-- C8: an argument list containing an unrecognised flag makes the whole
invocation fail while leaving the filesystem untouched — the effect trace
is empty, so no metadata probe, removal or link creation happens — and the
scan still consumes all flag tokens: the flags and operands it produces
are the same as in a scan whose failure bit never fired. -/
theorem ln_main_bad_flag (env : Env) (args : List Path)
    (h : hasBadFlag args = true) :
    (ln_main env args).ctx.status_failure = true ∧
    (ln_main env args).fx = Fx.nil ∧
    (getoptLoop args 0 true).1 = (getoptLoop args 0 false).1 ∧
    (getoptLoop args 0 true).2.2 = (getoptLoop args 0 false).2.2 := by
  have hfail : (getoptLoop args 0 false).2.1 = true := by
    rw [getoptLoop_failed]
    simp [h]
  refine ⟨?_, ?_, getoptLoop_fst args 0 true, getoptLoop_operands args 0 true⟩
  · simp [ln_main, hfail]
  · simp [ln_main, hfail]

/-- C8 witness: `ln -x a b` fails with an empty effect trace. -/
theorem ln_main_bad_flag_witness :
    (ln_main envNone ["-x".toList, "a".toList, "b".toList]).ctx.status_failure = true ∧
    (ln_main envNone ["-x".toList, "a".toList, "b".toList]).fx = Fx.nil ∧
    (getoptLoop ["-x".toList, "a".toList, "b".toList] 0 true).1 =
      (getoptLoop ["-x".toList, "a".toList, "b".toList] 0 false).1 ∧
    (getoptLoop ["-x".toList, "a".toList, "b".toList] 0 true).2.2 =
      (getoptLoop ["-x".toList, "a".toList, "b".toList] 0 false).2.2 :=
  ln_main_bad_flag envNone ["-x".toList, "a".toList, "b".toList] (by decide)

/-- C2: the exit status of `ln_main` is failure exactly when argument
validation failed (bad flag, operand count, or final-operand shape) or at
least one per-operand step — each judged independently from a clean
context — failed. -/
theorem ln_main_status_iff (env : Env) (args : List Path) :
    (ln_main env args).ctx.status_failure =
      (argValidationFailed env args || (lnStepResults env args).any id) := by
  rcases h : getoptLoop args 0 false with ⟨flags, failed, operands⟩
  simp only [ln_main, argValidationFailed, lnStepResults, h]
  cases failed with
  | true => simp
  | false =>
    by_cases h2 : operands.length < 2
    · simp [h2, ln_warn]
    · cases hst : env.stat (operands.getLastD []) with
      | some sb =>
        by_cases hd : sb.ftype = FType.dir
        · simp [h2, hst, hd, batch_foldl_split]
          rw [← List.map_dropLast, list_any_map_general]
          rfl
        · by_cases h3 : 2 < operands.length
          · simp [h2, hst, hd, h3, ln_warn]
          · simp [h2, hst, hd, h3, ln_warn]
      | none =>
        by_cases h4 : operands.length ≠ 2
        · simp [h2, hst, h4, ln_warn]
        · simp [h2, hst, h4, ln_warn]

/-- C5: operand dispatch after a successful flag parse: fewer than two
operands fails with no link or unlink attempted; a final operand statting
to a directory sends every other operand through composition and link
creation (also with exactly two operands — the batch branch takes
precedence); more than two operands with a non-directory final operand
fails with no link attempted; exactly two with a non-directory final
operand run `ln_create_link` once on `(source, destination)`. -/
theorem ln_main_operand_dispatch (env : Env) (args : List Path)
    (hparse : (getoptLoop args 0 false).2.1 = false) :
    ((lnOperands args).length < 2 →
       (ln_main env args).ctx.status_failure = true ∧
       (ln_main env args).fx.ops = [] ∧
       (ln_main env args).fx.unlinks = []) ∧
    (∀ sb : Stat, env.stat (lnTargetArg args) = some sb → sb.ftype = FType.dir →
       2 ≤ (lnOperands args).length →
       (ln_main env args).fx.ops =
         ((lnOperands args).dropLast.map
            (fun s =>
              (ln_target_dir env ⟨false, lnFlags args⟩ s (lnTargetArg args)).fx.ops)).flatten) ∧
    (2 < (lnOperands args).length → resolvesToDir env (lnTargetArg args) = false →
       (ln_main env args).ctx.status_failure = true ∧
       (ln_main env args).fx.ops = []) ∧
    ((lnOperands args).length = 2 → resolvesToDir env (lnTargetArg args) = false →
       ln_main env args =
         ⟨(ln_create_link env ⟨false, lnFlags args⟩ ((lnOperands args).getD 0 [])
             ((lnOperands args).getD 1 [])).ctx,
          Fx.app ⟨[lnTargetArg args], [], [], false⟩
            (ln_create_link env ⟨false, lnFlags args⟩ ((lnOperands args).getD 0 [])
               ((lnOperands args).getD 1 [])).fx⟩) := by
  rcases hg : getoptLoop args 0 false with ⟨flags, failed, operands⟩
  rw [hg] at hparse
  simp at hparse
  subst hparse
  simp only [ln_main, lnOperands, lnFlags, lnTargetArg, resolvesToDir, hg]
  refine ⟨?_, ?_, ?_, ?_⟩
  · intro hlen
    simp [hlen, ln_warn, Fx.nil]
  · intro sb hst hd hlen
    rw [List.getLastD_eq_getLast?] at hst
    simp [Nat.not_lt.mpr hlen, hst, hd, batch_foldl_split]
    rw [Fx.app_ops, fxFold_ops]
    simp
  · intro hlen hnd
    cases hst : env.stat (operands.getLastD []) with
    | some sb =>
      rw [hst] at hnd
      simp at hnd
      simp [Nat.not_lt.mpr (Nat.le_of_lt hlen), hst, hnd, hlen, ln_warn]
    | none =>
      rw [hst] at hnd
      simp [Nat.not_lt.mpr (Nat.le_of_lt hlen), hst, Nat.ne_of_gt hlen, ln_warn]
  · intro hlen hnd
    cases hst : env.stat (operands.getLastD []) with
    | some sb =>
      rw [hst] at hnd
      simp at hnd
      simp [hlen, hst, hnd]
    | none =>
      rw [hst] at hnd
      simp [hlen, hst]

/-- C5 witness: two operands whose final operand does not resolve to a
directory run `ln_create_link` once on the pair. -/
theorem ln_main_operand_dispatch_witness :
    ln_main envNone ["a".toList, "b".toList] =
      ⟨(ln_create_link envNone ⟨false, lnFlags ["a".toList, "b".toList]⟩
          ((lnOperands ["a".toList, "b".toList]).getD 0 [])
          ((lnOperands ["a".toList, "b".toList]).getD 1 [])).ctx,
       Fx.app ⟨[lnTargetArg ["a".toList, "b".toList]], [], [], false⟩
         (ln_create_link envNone ⟨false, lnFlags ["a".toList, "b".toList]⟩
            ((lnOperands ["a".toList, "b".toList]).getD 0 [])
            ((lnOperands ["a".toList, "b".toList]).getD 1 [])).fx⟩ :=
  (ln_main_operand_dispatch envNone ["a".toList, "b".toList] (by decide)).2.2.2
    (by decide) (by decide)

end Ln
